import Mathlib

/-!
Verification of the orchestration core of a LangGraph-based multi-agent
code-generation pipeline (`src/agent/graph.py`).

The development shallowly embeds:
* the sandboxed workspace store (`safe_path_for_project`, `write_file`,
  `read_file`, `list_files`, `run_cmd`),
* the step executor (`coder_agent`) and its routing (`route_coder`),
* the approval checkpoints (`approval_planner_node`, `approval_architect_node`)
  and their routing functions,
* the workflow graph as a labelled transition system over `GraphState`.

POSIX paths are modelled as lists of name segments of an absolute path
(`/a/b` is `["a", "b"]`); `pathlib.Path.resolve()` is modelled as the
normalization of `"."`, `""` and `".."` segments (for a symlink-free tree
this coincides with physical resolution; the sandbox check in the source is
applied to the already-resolved path, so the check itself is independent of
how the resolution came about).  The filesystem is a finite map from
resolved absolute paths to contents plus a set of existing directories.
Machine-level failures of the Python runtime that are determined by this
filesystem state (opening a directory for reading/writing, `mkdir` across an
existing file) are part of the model; unrelated OS faults (permissions,
disk full) are not.
-/

namespace LangGraphAgent

instance {ε α : Type _} [DecidableEq ε] [DecidableEq α] : DecidableEq (Except ε α) := fun x y => by
  cases x <;> cases y
  case error.error e f => exact decidable_of_iff (e = f) (by simp)
  case error.ok e a => exact .isFalse (by simp)
  case ok.error a e => exact .isFalse (by simp)
  case ok.ok a b => exact decidable_of_iff (a = b) (by simp)

/-- Segments of an absolute POSIX path: `/a/b` is `["a", "b"]`, `/` is `[]`. -/
abbrev Segs := List String

/-- A path argument as Python's `pathlib` parses it: either absolute
(overrides any base it is joined onto) or relative. -/
structure PyPath where
  absolute : Bool
  segs : List String
deriving Repr, DecidableEq

/-- Model of `pathlib.Path.resolve()` on an absolute path, modelled lexically:
`"."` and empty segments vanish, `".."` removes the last segment
(at the root, `/..` is `/`, hence `dropLast` on `[]`). -/
def resolveSegs (segs : List String) : List String :=
  segs.foldl
    (fun acc s =>
      if s = "." || s = "" then acc
      else if s = ".." then acc.dropLast
      else acc ++ [s]) []

/-- Model of `PROJECT_ROOT / path`: an absolute argument replaces the root, a relative
one is appended (`pathlib.PurePath.__truediv__`). -/
def joinSegs (root : Segs) (p : PyPath) : Segs :=
  if p.absolute then p.segs else root ++ p.segs

/-- Model of `Path.parent`: drop the last segment; the parent of `/` is `/`. -/
def parentSegs (q : Segs) : Segs := q.dropLast

/-- The exceptions the store's operations can raise. -/
inductive Err where
  /-- `ValueError("Attempt to write outside project root")` from
  `safe_path_for_project`. -/
  | pathEscape
  /-- `IsADirectoryError` from `open()` on a directory. -/
  | isADirectory
  /-- `NotADirectoryError` / `FileExistsError` from `mkdir(parents=True)`
  across an existing file. -/
  | notADirectory
  /-- `subprocess.TimeoutExpired` from `subprocess.run(..., timeout=...)`. -/
  | timeoutExpired
deriving Repr, DecidableEq

/-- Model of `safe_path_for_project` (graph.py:66-70):
```python
p = (PROJECT_ROOT / path).resolve()
if PROJECT_ROOT.resolve() not in p.parents and PROJECT_ROOT.resolve() != p.parent \
        and PROJECT_ROOT.resolve() != p:
    raise ValueError("Attempt to write outside project root")
return p
```
`r in p.parents` holds exactly when `r` is a strict ancestor of `p`, i.e. a
strict segment-list prefix. -/
def safe_path_for_project (root : Segs) (p : PyPath) : Except Err Segs :=
  let q := resolveSegs (joinSegs root p)
  let r := resolveSegs root
  if !(r.isPrefixOf q && r != q) && r != parentSegs q && r != q then
    .error .pathEscape
  else
    .ok q

/-- The workspace filesystem: resolved absolute file paths with their
contents, and the set of existing directories. -/
structure FS where
  files : List (Segs × String)
  dirs : List Segs
deriving Repr, DecidableEq

/-- Whether a regular file exists at `q`. -/
def hasFile (fs : FS) (q : Segs) : Bool :=
  fs.files.any (fun e => e.1 == q)

/-- Content of the file at `q` (first binding wins), empty if absent. -/
def getFileD (fs : FS) (q : Segs) : String :=
  ((fs.files.find? (fun e => e.1 == q)).map Prod.snd).getD ""

/-- The strict ancestors of `q` that lie inside the root: the directories
`p.parent.mkdir(parents=True, exist_ok=True)` guarantees to exist. -/
def ancestorsWithin (root q : Segs) : List Segs :=
  ((List.range q.length).map (fun n => q.take n)).filter
    (fun r => root.isPrefixOf r)

/-- Model of `write_file` (graph.py:72-79):
```python
p = safe_path_for_project(path)
p.parent.mkdir(parents=True, exist_ok=True)
with open(p, "w", encoding="utf-8") as f:
    f.write(content)
return f"WROTE:{p}"
```
`mkdir(parents=True)` fails if an ancestor exists as a regular file;
`open(p, "w")` fails if `p` is an existing directory; otherwise the file is
created or overwritten and the missing ancestors now exist as directories. -/
def write_file (fs : FS) (root : Segs) (p : PyPath) (content : String) :
    Except Err (String × FS) :=
  match safe_path_for_project root p with
  | .error e => .error e
  | .ok q =>
    if (ancestorsWithin root q).any (fun r => hasFile fs r) then
      .error .notADirectory
    else if q ∈ fs.dirs then
      .error .isADirectory
    else
      .ok ("WROTE", { files := (q, content) :: fs.files.filter (fun e => e.1 ≠ q),
                      dirs := fs.dirs ++ ancestorsWithin root q })

/-- Model of `read_file` (graph.py:81-88):
```python
p = safe_path_for_project(path)
if not p.exists():
    return ""
with open(p, "r", encoding="utf-8") as f:
    return f.read()
```
`p.exists()` is true for files and directories; `open(dir, "r")` raises
`IsADirectoryError`. -/
def read_file (fs : FS) (root : Segs) (p : PyPath) : Except Err String :=
  match safe_path_for_project root p with
  | .error e => .error e
  | .ok q =>
    if ¬ (q ∈ fs.dirs ∨ hasFile fs q = true) then .ok ""
    else if q ∈ fs.dirs then .error .isADirectory
    else .ok (getFileD fs q)

/-- The two shapes of string `list_files` returns: the error message
`f"ERROR: {p} is not a directory"` or the newline-joined listing. -/
inductive ListOutput where
  | errNotDir (q : Segs)
  | listing (xs : List Segs)
deriving Repr, DecidableEq

/-- Model of `list_files` (graph.py:95-102):
```python
p = safe_path_for_project(directory)
if not p.is_dir():
    return f"ERROR: {p} is not a directory"
files = [str(f.relative_to(PROJECT_ROOT)) for f in p.glob("**/*") if f.is_file()]
return "\n".join(files) if files else "No files found."
```
`p.glob("**/*")` yields every entry strictly below `p`; the `is_file()`
filter keeps the regular files; `relative_to(PROJECT_ROOT)` strips the root
prefix. -/
def list_files (fs : FS) (root : Segs) (p : PyPath) : Except Err ListOutput :=
  match safe_path_for_project root p with
  | .error e => .error e
  | .ok q =>
    if q ∈ fs.dirs then
      .ok (.listing
        (((fs.files.map Prod.fst).filter
            (fun f => q.isPrefixOf f && f != q)).map
          (fun f => f.drop root.length)))
    else
      .ok (.errNotDir q)

/-- A shell command as the model sees it: how long it runs and, if it
finishes, what it returns. -/
structure Cmd where
  duration : ℚ
  exitCode : Int
  stdout : String
  stderr : String
deriving Repr, DecidableEq

/-- The source's shell tool (graph.py:104-109; its Python name is a Lean
keyword, hence the name `run_command` here):
```python
cwd_dir = safe_path_for_project(cwd) if cwd else PROJECT_ROOT
res = subprocess.run(cmd, shell=True, cwd=str(cwd_dir), capture_output=True,
                     text=True, timeout=timeout)
return res.returncode, res.stdout, res.stderr
```
`subprocess.run` kills the child and raises `subprocess.TimeoutExpired` when
the command outlives the timeout; the tool installs no handler for it. -/
def run_command (root : Segs) (cmd : Cmd) (cwd : Option PyPath) (tmo : ℚ) :
    Except Err (Int × String × String) :=
  match cwd with
  | none =>
    if cmd.duration > tmo then .error .timeoutExpired
    else .ok (cmd.exitCode, cmd.stdout, cmd.stderr)
  | some c =>
    match safe_path_for_project root c with
    | .error e => .error e
    | .ok _ =>
      if cmd.duration > tmo then .error .timeoutExpired
      else .ok (cmd.exitCode, cmd.stdout, cmd.stderr)

/-- Composition: `write(path, content)` immediately followed by `read(path)`. -/
def write_then_read (fs : FS) (root : Segs) (p : PyPath) (content : String) :
    Except Err String :=
  match write_file fs root p content with
  | .error e => .error e
  | .ok (_, fsNew) => read_file fsNew root p

/-! ## Helper lemmas about segment lists -/

theorem isPrefixOf_self (l : List String) : l.isPrefixOf l = true := by
  induction l with
  | nil => rfl
  | cons a t ih => simp [List.isPrefixOf, ih]

theorem dropLast_isPrefixOf_self (l : List String) : l.dropLast.isPrefixOf l = true := by
  induction l with
  | nil => rfl
  | cons a t ih =>
    cases t with
    | nil => rfl
    | cons b t2 => simpa [List.dropLast, List.isPrefixOf] using ih

theorem isPrefixOf_append_drop (r : List String) :
    ∀ f : List String, r.isPrefixOf f = true → r ++ f.drop r.length = f := by
  induction r with
  | nil => intro f _; simp
  | cons a t ih =>
    intro f hf
    cases f with
    | nil => simp [List.isPrefixOf] at hf
    | cons b g =>
      simp only [List.isPrefixOf, Bool.and_eq_true, beq_iff_eq] at hf
      obtain ⟨rfl, h2⟩ := hf
      simpa using ih g h2

/-! ## Characterization of the sandbox check (claim C1) -/

theorem safe_path_ok_of_inside (root : Segs) (p : PyPath)
    (hroot : resolveSegs root = root)
    (h : root.isPrefixOf (resolveSegs (joinSegs root p)) = true) :
    safe_path_for_project root p = .ok (resolveSegs (joinSegs root p)) := by
  unfold safe_path_for_project
  rw [hroot]
  by_cases hq : root = resolveSegs (joinSegs root p)
  · simp [h, ← hq]
  · simp [h, hq, bne]

theorem safe_path_error_of_outside (root : Segs) (p : PyPath)
    (hroot : resolveSegs root = root)
    (h : root.isPrefixOf (resolveSegs (joinSegs root p)) = false) :
    safe_path_for_project root p = .error .pathEscape := by
  unfold safe_path_for_project
  rw [hroot]
  have h1 : root ≠ parentSegs (resolveSegs (joinSegs root p)) := by
    intro e
    have hp : (parentSegs (resolveSegs (joinSegs root p))).isPrefixOf
        (resolveSegs (joinSegs root p)) = true :=
      dropLast_isPrefixOf_self _
    rw [← e, h] at hp
    exact Bool.noConfusion hp
  have h2 : root ≠ resolveSegs (joinSegs root p) := by
    intro e
    have hp : (resolveSegs (joinSegs root p)).isPrefixOf
        (resolveSegs (joinSegs root p)) = true :=
      isPrefixOf_self _
    nth_rewrite 1 [← e] at hp
    rw [h] at hp
    exact Bool.noConfusion hp
  simp [h, h1, h2, bne]

/-- C1: every path argument to the four workspace-store operations is routed
through `safe_path_for_project` first.  A path whose resolution is not the
root or a descendant of the root (be it by `..` traversal segments or by an
absolute-path override; symlinks are subsumed because the check runs on the
fully resolved path) makes every operation fail with the path-escape error
before any storage effect (the error result carries no new filesystem); a
path resolving to the root or below it resolves successfully to the
root-prefixed absolute path. -/
theorem sandbox_rejects_escape_admits_descendants
    (root : Segs) (pin pout : PyPath) (fs : FS) (content : String) (cmd : Cmd) (tmo : ℚ)
    (hroot : resolveSegs root = root)
    (hin : root.isPrefixOf (resolveSegs (joinSegs root pin)) = true)
    (hout : root.isPrefixOf (resolveSegs (joinSegs root pout)) = false) :
    safe_path_for_project root pin = .ok (resolveSegs (joinSegs root pin))
    ∧ safe_path_for_project root pout = .error .pathEscape
    ∧ write_file fs root pout content = .error .pathEscape
    ∧ read_file fs root pout = .error .pathEscape
    ∧ list_files fs root pout = .error .pathEscape
    ∧ run_command root cmd (some pout) tmo = .error .pathEscape := by
  have hok := safe_path_ok_of_inside root pin hroot hin
  have herr := safe_path_error_of_outside root pout hroot hout
  refine ⟨hok, herr, ?_, ?_, ?_, ?_⟩
  · simp [write_file, herr]
  · simp [read_file, herr]
  · simp [list_files, herr]
  · simp [run_command, herr]

theorem sandbox_rejects_escape_admits_descendants_witness :
    (resolveSegs ["ws"] = ["ws"]
      ∧ List.isPrefixOf ["ws"] (resolveSegs (joinSegs ["ws"] ⟨false, ["sub", "f.txt"]⟩)) = true
      ∧ List.isPrefixOf ["ws"] (resolveSegs (joinSegs ["ws"] ⟨false, ["..", "etc", "passwd"]⟩)) = false)
    ∧ (safe_path_for_project ["ws"] ⟨false, ["sub", "f.txt"]⟩
          = .ok (resolveSegs (joinSegs ["ws"] ⟨false, ["sub", "f.txt"]⟩))
        ∧ safe_path_for_project ["ws"] ⟨false, ["..", "etc", "passwd"]⟩ = .error .pathEscape
        ∧ write_file ⟨[], [["ws"]]⟩ ["ws"] ⟨false, ["..", "etc", "passwd"]⟩ "x" = .error .pathEscape
        ∧ read_file ⟨[], [["ws"]]⟩ ["ws"] ⟨false, ["..", "etc", "passwd"]⟩ = .error .pathEscape
        ∧ list_files ⟨[], [["ws"]]⟩ ["ws"] ⟨false, ["..", "etc", "passwd"]⟩ = .error .pathEscape
        ∧ run_command ["ws"] ⟨1, 0, "", ""⟩ (some ⟨false, ["..", "etc", "passwd"]⟩) 30
            = .error .pathEscape) :=
  ⟨⟨by decide, by decide, by decide⟩,
    sandbox_rejects_escape_admits_descendants ["ws"] ⟨false, ["sub", "f.txt"]⟩
      ⟨false, ["..", "etc", "passwd"]⟩ ⟨[], [["ws"]]⟩ "x" ⟨1, 0, "", ""⟩ 30
      (by decide) (by decide) (by decide)⟩

/-! ## Claim C2: timeout behaviour of the shell tool -/

/-- C2 (counterexample): a command that would run 5 time-units under
`timeout=1` does not produce any `(exitCode, stdout, stderr)` result —
`subprocess.run` raises `TimeoutExpired` and the tool body (graph.py:104-109)
has no handler, so the timeout surfaces as an exception, contradicting the
claim that it is "never surfaced as an unhandled exception" and is returned
"as a failure-shaped result with a non-zero exit code". -/
theorem run_command_timeout_uncaught_cx :
    run_command ["ws"] ⟨5, 0, "out", "err"⟩ none 1 = .error .timeoutExpired := by decide

/-- C2 (amended): for every shell command whose execution exceeds the given
timeout (with a `cwd` that is absent or resolves inside the root), the
`subprocess.run` machinery terminates the child process and `run_cmd`
propagates `TimeoutExpired` as an exception; no `(exitCode, stdout, stderr)`
result is returned. -/
theorem run_command_timeout_raises (root : Segs) (cmd : Cmd) (cwd : Option PyPath) (tmo : ℚ)
    (hcwd : ∀ c, cwd = some c → ∃ q, safe_path_for_project root c = .ok q)
    (h : cmd.duration > tmo) :
    run_command root cmd cwd tmo = .error .timeoutExpired := by
  match cwd with
  | none => simp [run_command, h]
  | some c =>
    obtain ⟨q, hq⟩ := hcwd c rfl
    simp [run_command, hq, h]

theorem run_command_timeout_raises_witness :
    ((5 : ℚ) > 1)
    ∧ run_command ["ws"] ⟨5, 0, "out", "err"⟩ none 1 = .error .timeoutExpired :=
  ⟨by norm_num,
    run_command_timeout_raises ["ws"] ⟨5, 0, "out", "err"⟩ none 1
      (fun c h => nomatch h) (by norm_num)⟩

/-! ## Claim C3: `list_files` -/

/-- C3: for a target path inside the root, `list_files` reports the
not-a-directory error (the `ERROR: ... is not a directory` return) when the
target is not a directory, and otherwise returns the sequence of
workspace-relative paths of exactly the files lying strictly below the
target, recursively. -/
theorem list_files_rejects_non_dir_and_lists_recursively
    (fs : FS) (root : Segs) (pnd pdir : PyPath) (qnd qdir : Segs)
    (hwf : ∀ e ∈ fs.files, root.isPrefixOf e.1 = true)
    (h1 : safe_path_for_project root pnd = .ok qnd)
    (h2 : qnd ∉ fs.dirs)
    (h3 : safe_path_for_project root pdir = .ok qdir)
    (h4 : qdir ∈ fs.dirs) :
    list_files fs root pnd = .ok (.errNotDir qnd)
    ∧ ∃ xs, list_files fs root pdir = .ok (.listing xs)
        ∧ ∀ rel, rel ∈ xs ↔ ∃ f, f ∈ fs.files.map Prod.fst
            ∧ qdir.isPrefixOf f = true ∧ f ≠ qdir ∧ root ++ rel = f := by
  constructor
  · simp [list_files, h1, h2]
  · refine ⟨((fs.files.map Prod.fst).filter
        (fun f => qdir.isPrefixOf f && f != qdir)).map (fun f => f.drop root.length), ?_, ?_⟩
    · simp [list_files, h3, h4]
    · intro rel
      constructor
      · intro hmem
        obtain ⟨f, hfilter, rfl⟩ := List.mem_map.mp hmem
        obtain ⟨hf, hcond⟩ := List.mem_filter.mp hfilter
        simp only [Bool.and_eq_true, bne_iff_ne] at hcond
        refine ⟨f, hf, hcond.1, hcond.2, ?_⟩
        obtain ⟨e, he, rfl⟩ := List.mem_map.mp hf
        exact isPrefixOf_append_drop root e.1 (hwf e he)
      · rintro ⟨f, hf, hpre, hne, hrel⟩
        have hdrop : rel = f.drop root.length := by
          rw [← hrel]; simp
        rw [hdrop]
        exact List.mem_map.mpr ⟨f, List.mem_filter.mpr ⟨hf, by simp [hpre, hne]⟩, rfl⟩

theorem list_files_rejects_non_dir_and_lists_recursively_witness :
    ((∀ e ∈ FS.files ⟨[(["ws", "a.txt"], "A"), (["ws", "sub", "b.txt"], "B")],
          [["ws"], ["ws", "sub"]]⟩, List.isPrefixOf ["ws"] e.1 = true)
      ∧ safe_path_for_project ["ws"] ⟨false, ["a.txt"]⟩ = .ok ["ws", "a.txt"]
      ∧ ["ws", "a.txt"] ∉ FS.dirs ⟨[(["ws", "a.txt"], "A"), (["ws", "sub", "b.txt"], "B")],
          [["ws"], ["ws", "sub"]]⟩
      ∧ safe_path_for_project ["ws"] ⟨false, []⟩ = .ok ["ws"]
      ∧ ["ws"] ∈ FS.dirs ⟨[(["ws", "a.txt"], "A"), (["ws", "sub", "b.txt"], "B")],
          [["ws"], ["ws", "sub"]]⟩)
    ∧ (list_files ⟨[(["ws", "a.txt"], "A"), (["ws", "sub", "b.txt"], "B")],
          [["ws"], ["ws", "sub"]]⟩ ["ws"] ⟨false, ["a.txt"]⟩ = .ok (.errNotDir ["ws", "a.txt"])
        ∧ ∃ xs, list_files ⟨[(["ws", "a.txt"], "A"), (["ws", "sub", "b.txt"], "B")],
              [["ws"], ["ws", "sub"]]⟩ ["ws"] ⟨false, []⟩ = .ok (.listing xs)
            ∧ ∀ rel, rel ∈ xs ↔ ∃ f, f ∈ (FS.files ⟨[(["ws", "a.txt"], "A"),
                  (["ws", "sub", "b.txt"], "B")], [["ws"], ["ws", "sub"]]⟩).map Prod.fst
                ∧ List.isPrefixOf ["ws"] f = true ∧ f ≠ ["ws"] ∧ ["ws"] ++ rel = f) :=
  ⟨⟨by decide, by decide, by decide, by decide, by decide⟩,
    list_files_rejects_non_dir_and_lists_recursively
      ⟨[(["ws", "a.txt"], "A"), (["ws", "sub", "b.txt"], "B")], [["ws"], ["ws", "sub"]]⟩
      ["ws"] ⟨false, ["a.txt"]⟩ ⟨false, []⟩ ["ws", "a.txt"] ["ws"]
      (by decide) (by decide) (by decide) (by decide) (by decide)⟩

/-! ## Claim C4: write/read round-trip -/

theorem self_not_mem_ancestorsWithin (root q : Segs) : q ∉ ancestorsWithin root q := by
  intro hmem
  simp only [ancestorsWithin, List.mem_filter, List.mem_map, List.mem_range] at hmem
  obtain ⟨⟨n, hn, heq⟩, _⟩ := hmem
  have hlen := congrArg List.length heq
  simp [List.length_take] at hlen
  omega

/-- C4 (counterexample): `"."` resolves inside the root (to the root itself,
an existing directory after `init_project_root`), yet
`write(".", "hello")` fails — `open(PROJECT_ROOT, "w")` raises
`IsADirectoryError` — so `write(path, content)` followed by `read(path)`
does not return `content` for every in-root path. -/
theorem write_read_roundtrip_cx :
    safe_path_for_project ["ws"] ⟨false, ["."]⟩ = .ok ["ws"]
    ∧ write_then_read ⟨[], [["ws"]]⟩ ["ws"] ⟨false, ["."]⟩ "hello" = .error .isADirectory
    ∧ write_then_read ⟨[], [["ws"]]⟩ ["ws"] ⟨false, ["."]⟩ "hello" ≠ .ok "hello" := by
  refine ⟨by decide, by decide, by decide⟩

/-- C4 (amended): for every in-root path that does not resolve to an
existing directory and none of whose in-root ancestors is an existing file,
`write(path, content)` followed by `read(path)` returns exactly `content`
(empty and multi-line strings included, the model is byte-agnostic);
`write` creates the missing parent directories and overwrites any existing
file at the target. -/
theorem read_file_ok_of_file (fs : FS) (root : Segs) (p : PyPath) (q : Segs)
    (hq : safe_path_for_project root p = .ok q)
    (hdir : q ∉ fs.dirs) (hhas : hasFile fs q = true) :
    read_file fs root p = .ok (getFileD fs q) := by
  simp [read_file, hq, hdir, hhas]

theorem write_read_roundtrip (fs : FS) (root : Segs) (p : PyPath) (content : String) (q : Segs)
    (hq : safe_path_for_project root p = .ok q)
    (hdir : q ∉ fs.dirs)
    (hanc : ∀ r ∈ ancestorsWithin root q, hasFile fs r = false) :
    write_then_read fs root p content = .ok content
    ∧ ∃ fsNew, write_file fs root p content = .ok ("WROTE", fsNew)
        ∧ (∀ r ∈ ancestorsWithin root q, r ∈ fsNew.dirs)
        ∧ getFileD fsNew q = content := by
  have hanc' : (ancestorsWithin root q).any (fun r => hasFile fs r) = false := by
    rw [List.any_eq_false]
    intro r hr
    simp [hanc r hr]
  have hwrite : write_file fs root p content
      = .ok ("WROTE", ⟨(q, content) :: fs.files.filter (fun e => e.1 ≠ q),
          fs.dirs ++ ancestorsWithin root q⟩) := by
    simp [write_file, hq, hanc', hdir]
  have hdirNew : q ∉ (FS.mk ((q, content) :: fs.files.filter (fun e => e.1 ≠ q))
      (fs.dirs ++ ancestorsWithin root q)).dirs := by
    intro hmem
    rcases List.mem_append.mp hmem with h | h
    · exact hdir h
    · exact self_not_mem_ancestorsWithin root q h
  have hhasNew : hasFile ⟨(q, content) :: fs.files.filter (fun e => e.1 ≠ q),
      fs.dirs ++ ancestorsWithin root q⟩ q = true := by
    simp [hasFile]
  have hgetNew : getFileD ⟨(q, content) :: fs.files.filter (fun e => e.1 ≠ q),
      fs.dirs ++ ancestorsWithin root q⟩ q = content := by
    simp [getFileD, List.find?]
  have hread := read_file_ok_of_file
    ⟨(q, content) :: fs.files.filter (fun e => e.1 ≠ q), fs.dirs ++ ancestorsWithin root q⟩
    root p q hq hdirNew hhasNew
  rw [hgetNew] at hread
  refine ⟨?_, ⟨_, hwrite, ?_, hgetNew⟩⟩
  · unfold write_then_read
    rw [hwrite]
    exact hread
  · intro r hr
    exact List.mem_append.mpr (Or.inr hr)

theorem write_read_roundtrip_witness :
    (safe_path_for_project ["ws"] ⟨false, ["sub", "a"]⟩ = .ok ["ws", "sub", "a"]
      ∧ ["ws", "sub", "a"] ∉ FS.dirs ⟨[(["ws", "sub", "a"], "old")], [["ws"]]⟩
      ∧ ∀ r ∈ ancestorsWithin ["ws"] ["ws", "sub", "a"],
          hasFile ⟨[(["ws", "sub", "a"], "old")], [["ws"]]⟩ r = false)
    ∧ (write_then_read ⟨[(["ws", "sub", "a"], "old")], [["ws"]]⟩ ["ws"]
          ⟨false, ["sub", "a"]⟩ "new line 1\nline 2" = .ok "new line 1\nline 2"
        ∧ ∃ fsNew, write_file ⟨[(["ws", "sub", "a"], "old")], [["ws"]]⟩ ["ws"]
              ⟨false, ["sub", "a"]⟩ "new line 1\nline 2" = .ok ("WROTE", fsNew)
            ∧ (∀ r ∈ ancestorsWithin ["ws"] ["ws", "sub", "a"], r ∈ fsNew.dirs)
            ∧ getFileD fsNew ["ws", "sub", "a"] = "new line 1\nline 2") :=
  ⟨⟨by decide, by decide, by decide⟩,
    write_read_roundtrip ⟨[(["ws", "sub", "a"], "old")], [["ws"]]⟩ ["ws"]
      ⟨false, ["sub", "a"]⟩ "new line 1\nline 2" ["ws", "sub", "a"]
      (by decide) (by decide) (by decide)⟩

/-! ## Data model (graph.py:26-48) and the step executor (graph.py:236-290) -/

/-- Model of `File` (graph.py:26-28). -/
structure File where
  path : String
  purpose : String
deriving Repr, DecidableEq

/-- Model of `Plan` (graph.py:30-35). -/
structure Plan where
  name : String
  description : String
  techstack : String
  features : List String
  files : List File
deriving Repr, DecidableEq

/-- Model of `ImplementationTask` (graph.py:37-39). -/
structure ImplementationTask where
  filepath : String
  task_description : String
deriving Repr, DecidableEq

/-- Model of `TaskPlan` (graph.py:41-43); `plan` is the extra attribute the architect
attaches (`message.plan = plan`, graph.py:228, allowed by
`ConfigDict(extra="allow")`). -/
structure TaskPlan where
  implementation_steps : List ImplementationTask
  plan : Option Plan := none
deriving Repr, DecidableEq

/-- Model of `CoderState` (graph.py:45-48). -/
structure CoderState where
  task_plan : TaskPlan
  current_step_idx : Nat
  current_file_content : Option String := none
deriving Repr, DecidableEq

/-- Constant `TIMEOUT_SECONDS` (graph.py:269). -/
def TIMEOUT_SECONDS : ℚ := 120

/-- What one invocation of the coder node returns into the graph state:
the mutated `CoderState`, the `status` key when present, and the log lines
it printed. -/
structure CoderResult where
  coder_state : CoderState
  status : Option String
  logs : List String
deriving Repr, DecidableEq

/-- One invocation of `coder_agent` (graph.py:236-290) on an initialized
`CoderState`.  The oracle inputs stand for the external world of that
invocation: `readRes` is the result of `read_file.run(current_task.filepath)`
(an exception there — only possible for an escaping file path — is raised
OUTSIDE the `try`, aborting the node), `inferFailed` tells whether
`react_agent.invoke` raised (the `except` block only logs), and `elapsed` is
`time.time() - start_time` measured over the call.  The cursor is advanced
unconditionally after the try/except; if `elapsed > TIMEOUT_SECONDS` the
node returns `status="DONE"` early even though steps may remain. -/
def coderStep (readRes : Except Err String) (inferFailed : Bool) (elapsed : ℚ)
    (cs : CoderState) : Except Err CoderResult :=
  let total := cs.task_plan.implementation_steps.length
  if cs.current_step_idx ≥ total then
    .ok ⟨cs, some "DONE", ["[CODER] All steps completed."]⟩
  else
    match readRes with
    | .error e => .error e
    | .ok _existing =>
      let failLog := if inferFailed then ["[CODER] Error during step"] else []
      let logs := failLog ++ ["[CODER] Step completed"]
      let csNext : CoderState := { cs with current_step_idx := cs.current_step_idx + 1 }
      if elapsed > TIMEOUT_SECONDS then
        .ok ⟨csNext, some "DONE", logs ++ ["[CODER] Timeout exceeded. Exiting early."]⟩
      else
        .ok ⟨csNext, none, logs⟩

/-- Model of `coder_agent` including the lazy initialization
`CoderState(task_plan=state["task_plan"], current_step_idx=0)`
(graph.py:238-241); `state["task_plan"]` raises `KeyError` when absent,
modelled as the `none, none` case producing no result. -/
def coder_agent (readRes : Except Err String) (inferFailed : Bool) (elapsed : ℚ)
    (taskPlanInState : Option TaskPlan) (coderStateInState : Option CoderState) :
    Option (Except Err CoderResult) :=
  match coderStateInState, taskPlanInState with
  | none, none => none
  | none, some tp => some (coderStep readRes inferFailed elapsed ⟨tp, 0, none⟩)
  | some cs, _ => some (coderStep readRes inferFailed elapsed cs)

/-- Model of `route_coder` (graph.py:365-369). -/
def route_coder (status : Option String) : String :=
  if status = some "DONE" then "__end__" else "coder"

/-- Per-invocation oracle inputs of the coding loop: the read result, the
inference-failure flag and the elapsed time of the k-th node invocation. -/
abbrev StepOracle := Nat → Except Err String × Bool × ℚ

/-- Iterates `k` invocations of the coder node starting from the state the graph
enters Coding with (`coder_state` unset, `status` unset), as driven by the
`coder → route_coder → coder | __end__` loop (graph.py:405-412): once
`status == "DONE"` the graph stops invoking the node. -/
def coder_loop (tp : TaskPlan) (oracle : StepOracle) :
    Nat → Except Err (Option CoderState × Option String)
  | 0 => .ok (none, none)
  | k + 1 =>
    match coder_loop tp oracle k with
    | .error e => .error e
    | .ok (cs, st) =>
      if st = some "DONE" then .ok (cs, st)
      else
        match coder_agent (oracle k).1 (oracle k).2.1 (oracle k).2.2 (some tp) cs with
        | none => .error .pathEscape  -- unreachable: the task plan is present
        | some (.error e) => .error e
        | some (.ok res) => .ok (some res.coder_state, res.status)

/-- A one-step task plan, for concrete executions. -/
def tpOne : TaskPlan := ⟨[⟨"main.py", "write the main module"⟩], none⟩

/-- A two-step task plan, for concrete executions. -/
def tpTwo : TaskPlan :=
  ⟨[⟨"main.py", "write the main module"⟩, ⟨"board.py", "write the board module"⟩], none⟩

/-- An oracle under which every invocation reads successfully, infers
successfully and takes no measurable time. -/
def oracleOk : StepOracle := fun _ => (.ok "", false, 0)

/-! ## Behaviour of one coder invocation -/

theorem coderStep_done (readRes : Except Err String) (f : Bool) (elapsed : ℚ) (cs : CoderState)
    (hge : cs.current_step_idx ≥ cs.task_plan.implementation_steps.length) :
    coderStep readRes f elapsed cs = .ok ⟨cs, some "DONE", ["[CODER] All steps completed."]⟩ := by
  simp [coderStep, hge]

theorem coderStep_advance (readRes : Except Err String) (f : Bool) (elapsed : ℚ) (cs : CoderState)
    (hlt : cs.current_step_idx < cs.task_plan.implementation_steps.length)
    (hread : ∃ s, readRes = .ok s)
    (hnov : ¬ elapsed > TIMEOUT_SECONDS) :
    coderStep readRes f elapsed cs
      = .ok ⟨{ cs with current_step_idx := cs.current_step_idx + 1 }, none,
          (if f then ["[CODER] Error during step"] else []) ++ ["[CODER] Step completed"]⟩ := by
  obtain ⟨s, rfl⟩ := hread
  have hnot : ¬ cs.current_step_idx ≥ cs.task_plan.implementation_steps.length := not_le.mpr hlt
  simp [coderStep, hnot, hnov]

theorem coderStep_overrun (readRes : Except Err String) (f : Bool) (elapsed : ℚ) (cs : CoderState)
    (hlt : cs.current_step_idx < cs.task_plan.implementation_steps.length)
    (hread : ∃ s, readRes = .ok s)
    (hover : elapsed > TIMEOUT_SECONDS) :
    coderStep readRes f elapsed cs
      = .ok ⟨{ cs with current_step_idx := cs.current_step_idx + 1 }, some "DONE",
          ((if f then ["[CODER] Error during step"] else []) ++ ["[CODER] Step completed"])
            ++ ["[CODER] Timeout exceeded. Exiting early."]⟩ := by
  obtain ⟨s, rfl⟩ := hread
  have hnot : ¬ cs.current_step_idx ≥ cs.task_plan.implementation_steps.length := not_le.mpr hlt
  simp [coderStep, hnot, hover]

/-- The first `k ≤ N` loop invocations each process one step and none
declares the run done. -/
theorem coder_loop_below (tp : TaskPlan) (oracle : StepOracle)
    (hok : ∀ i, i < tp.implementation_steps.length → ∃ s, (oracle i).1 = .ok s)
    (hno : ∀ i, i < tp.implementation_steps.length → ¬ (oracle i).2.2 > TIMEOUT_SECONDS) :
    ∀ k, k ≤ tp.implementation_steps.length →
      coder_loop tp oracle k
        = .ok ((if k = 0 then none else some ⟨tp, k, none⟩), none) := by
  intro k
  induction k with
  | zero => intro _; rfl
  | succ n ih =>
    intro hle
    have hn : n < tp.implementation_steps.length := hle
    have hprev := ih (Nat.le_of_lt hn)
    have hadv := coderStep_advance (oracle n).1 (oracle n).2.1 (oracle n).2.2 ⟨tp, n, none⟩
      hn (hok n hn) (hno n hn)
    by_cases h0 : n = 0
    · subst h0
      simp [coder_loop, coder_agent, hadv]
    · simp only [coder_loop]
      rw [hprev]
      simp [coder_agent, hadv, h0]

/-! ## Claim C5: number of invocations before Done -/

/-- C5 (counterexample): a task plan with N = 1 step, no overrun.  After
exactly 1 invocation of the step executor the cursor is at 1 = N, but the
status is NOT `"DONE"` — the router sends the run back into Coding — and
only the second invocation (which processes no step) marks the run Done.
So the run does not reach Done after exactly N invocations. -/
theorem coder_done_needs_extra_invocation_cx :
    coder_loop tpOne oracleOk 1 = .ok (some ⟨tpOne, 1, none⟩, none)
    ∧ coder_loop tpOne oracleOk 1 ≠ .ok (some ⟨tpOne, 1, none⟩, some "DONE")
    ∧ route_coder none = "coder"
    ∧ coder_loop tpOne oracleOk 2 = .ok (some ⟨tpOne, 1, none⟩, some "DONE") :=
  ⟨by decide, by decide, by decide, by decide⟩

/-- C5 (amended): for every TaskPlan with N implementation steps, if every
per-step read succeeds and no per-step time overrun occurs, then after N
invocations of the step executor the step cursor's index equals N but the
run is not yet Done, and after exactly N+1 invocations (the last processing
no step) the run reaches the Done terminal state with the cursor still at
N. -/
theorem coder_loop_reaches_done_after_succ (tp : TaskPlan) (oracle : StepOracle)
    (hok : ∀ i, i < tp.implementation_steps.length → ∃ s, (oracle i).1 = .ok s)
    (hno : ∀ i, i < tp.implementation_steps.length → ¬ (oracle i).2.2 > TIMEOUT_SECONDS) :
    coder_loop tp oracle tp.implementation_steps.length
      = .ok ((if tp.implementation_steps.length = 0 then none
              else some ⟨tp, tp.implementation_steps.length, none⟩), none)
    ∧ coder_loop tp oracle (tp.implementation_steps.length + 1)
      = .ok (some ⟨tp, tp.implementation_steps.length, none⟩, some "DONE") := by
  have hN := coder_loop_below tp oracle hok hno tp.implementation_steps.length le_rfl
  refine ⟨hN, ?_⟩
  simp only [coder_loop]
  rw [hN]
  by_cases h0 : tp.implementation_steps.length = 0
  · rw [h0]
    have hdone := coderStep_done (oracle 0).1 (oracle 0).2.1 (oracle 0).2.2
      ⟨tp, 0, none⟩ (by simp [h0])
    simp [h0, coder_agent, hdone]
  · have hdone := coderStep_done (oracle tp.implementation_steps.length).1
      (oracle tp.implementation_steps.length).2.1 (oracle tp.implementation_steps.length).2.2
      ⟨tp, tp.implementation_steps.length, none⟩ le_rfl
    simp [h0, coder_agent, hdone]

theorem coder_loop_reaches_done_after_succ_witness :
    ((∀ i, i < tpTwo.implementation_steps.length → ∃ s, (oracleOk i).1 = .ok s)
      ∧ (∀ i, i < tpTwo.implementation_steps.length → ¬ (oracleOk i).2.2 > TIMEOUT_SECONDS))
    ∧ (coder_loop tpTwo oracleOk tpTwo.implementation_steps.length
        = .ok ((if tpTwo.implementation_steps.length = 0 then none
                else some ⟨tpTwo, tpTwo.implementation_steps.length, none⟩), none)
      ∧ coder_loop tpTwo oracleOk (tpTwo.implementation_steps.length + 1)
        = .ok (some ⟨tpTwo, tpTwo.implementation_steps.length, none⟩, some "DONE")) :=
  ⟨⟨fun i _ => ⟨"", rfl⟩, fun i _ => by norm_num [oracleOk, TIMEOUT_SECONDS]⟩,
    coder_loop_reaches_done_after_succ tpTwo oracleOk
      (fun i _ => ⟨"", rfl⟩) (fun i _ => by norm_num [oracleOk, TIMEOUT_SECONDS])⟩

/-! ## Claim C6: inference failure handling -/

/-- C6 (counterexample): a step whose inference call fails AND lasts 121s
(over the 120s ceiling), with a second step remaining.  The node logs the
failure and advances the cursor, but the run is marked Done and routed to
`__end__`: it does not continue to the next step, contradicting the claim
that an inference failure never terminates the run. -/
theorem coder_failure_with_overrun_terminates_cx :
    coderStep (.ok "") true 121 ⟨tpTwo, 0, none⟩
      = .ok ⟨⟨tpTwo, 1, none⟩, some "DONE",
          ["[CODER] Error during step", "[CODER] Step completed",
           "[CODER] Timeout exceeded. Exiting early."]⟩
    ∧ route_coder (some "DONE") = "__end__"
    ∧ 1 < tpTwo.implementation_steps.length :=
  ⟨by decide, by decide, by decide⟩

/-- C6 (amended): when the inference call of a step fails with an exception,
the step executor logs the failure and still advances the cursor by one;
provided that call did not overrun the 120s ceiling, the run continues to
the next step (status unset, routed back into Coding).  In every case the
failure itself changes only the log: the resulting cursor and status are
identical to those of a successful call of the same duration, so
termination can only come from the overrun guard, never from the failure. -/
theorem inference_failure_skips_step_and_continues
    (cs : CoderState) (elapsed : ℚ) (content : String)
    (hlt : cs.current_step_idx < cs.task_plan.implementation_steps.length)
    (hnov : ¬ elapsed > TIMEOUT_SECONDS) :
    coderStep (.ok content) true elapsed cs
      = .ok ⟨{ cs with current_step_idx := cs.current_step_idx + 1 }, none,
          ["[CODER] Error during step", "[CODER] Step completed"]⟩
    ∧ route_coder none = "coder"
    ∧ ∀ e2 : ℚ, (coderStep (.ok content) true e2 cs).map (fun r => (r.coder_state, r.status))
        = (coderStep (.ok content) false e2 cs).map (fun r => (r.coder_state, r.status)) := by
  refine ⟨?_, by decide, ?_⟩
  · have h := coderStep_advance (.ok content) true elapsed cs hlt ⟨content, rfl⟩ hnov
    simpa using h
  · intro e2
    by_cases h1 : cs.current_step_idx ≥ cs.task_plan.implementation_steps.length
      <;> by_cases h2 : e2 > TIMEOUT_SECONDS
      <;> simp [coderStep, h1, h2, Except.map]

theorem inference_failure_skips_step_and_continues_witness :
    ((0 : Nat) < tpTwo.implementation_steps.length ∧ ¬ (3 : ℚ) > TIMEOUT_SECONDS)
    ∧ (coderStep (.ok "") true 3 ⟨tpTwo, 0, none⟩
        = .ok ⟨⟨tpTwo, 1, none⟩, none, ["[CODER] Error during step", "[CODER] Step completed"]⟩
      ∧ route_coder none = "coder"
      ∧ ∀ e2 : ℚ, (coderStep (.ok "") true e2 ⟨tpTwo, 0, none⟩).map
            (fun r => (r.coder_state, r.status))
          = (coderStep (.ok "") false e2 ⟨tpTwo, 0, none⟩).map
            (fun r => (r.coder_state, r.status))) :=
  ⟨⟨by decide, by decide⟩,
    inference_failure_skips_step_and_continues ⟨tpTwo, 0, none⟩ 3 "" (by decide) (by decide)⟩

/-! ## Claim C7: the global overrun guard -/

/-- C7: for an invocation that processes a step, if the elapsed time of that
single backend call exceeds the 120s ceiling the node returns status
`"DONE"` and the router ends the run — regardless of whether steps remain
unprocessed — while an invocation whose call stays within the ceiling
leaves the status unset and the router loops back into Coding. -/
theorem coding_overrun_guard (cs : CoderState) (content : String) (eOver eUnder : ℚ)
    (inferFailed : Bool)
    (hlt : cs.current_step_idx < cs.task_plan.implementation_steps.length)
    (hover : eOver > TIMEOUT_SECONDS)
    (hunder : ¬ eUnder > TIMEOUT_SECONDS) :
    (∃ r, coderStep (.ok content) inferFailed eOver cs = .ok r
        ∧ r.status = some "DONE"
        ∧ r.coder_state.current_step_idx = cs.current_step_idx + 1
        ∧ route_coder r.status = "__end__")
    ∧ (∃ r, coderStep (.ok content) inferFailed eUnder cs = .ok r
        ∧ r.status = none ∧ route_coder r.status = "coder") := by
  constructor
  · refine ⟨_, coderStep_overrun (.ok content) inferFailed eOver cs hlt ⟨content, rfl⟩ hover,
      rfl, rfl, ?_⟩
    simp [route_coder]
  · refine ⟨_, coderStep_advance (.ok content) inferFailed eUnder cs hlt ⟨content, rfl⟩ hunder,
      rfl, ?_⟩
    simp [route_coder]

theorem coding_overrun_guard_witness :
    ((0 : Nat) < tpTwo.implementation_steps.length
      ∧ (121 : ℚ) > TIMEOUT_SECONDS ∧ ¬ (5 : ℚ) > TIMEOUT_SECONDS)
    ∧ ((∃ r, coderStep (.ok "") false 121 ⟨tpTwo, 0, none⟩ = .ok r
          ∧ r.status = some "DONE"
          ∧ r.coder_state.current_step_idx = 0 + 1
          ∧ route_coder r.status = "__end__")
      ∧ (∃ r, coderStep (.ok "") false 5 ⟨tpTwo, 0, none⟩ = .ok r
          ∧ r.status = none ∧ route_coder r.status = "coder")) :=
  ⟨⟨by decide, by decide, by decide⟩,
    coding_overrun_guard ⟨tpTwo, 0, none⟩ "" 121 5 false (by decide) (by decide) (by decide)⟩
/-! ## Workflow state and the approval checkpoints (graph.py:52-62, 294-369) -/

/-- Model of `GraphState` (graph.py:52-62).  `TypedDict(total=False)`: every key is
optional; a node's returned dict is merged into the state, keys it does not
mention keep their previous value. -/
structure GraphState where
  user_prompt : Option String := none
  plan : Option Plan := none
  task_plan : Option TaskPlan := none
  coder_state : Option CoderState := none
  status : Option String := none
  edit_request : Option String := none
  previous_plan : Option Plan := none
  previous_task_plan : Option TaskPlan := none
  planner_approved : Option String := none
  architect_approved : Option String := none
deriving Repr, DecidableEq

/-- Python's `str.strip()`: remove leading and trailing whitespace. -/
def pyStrip (s : String) : String :=
  ⟨((s.data.dropWhile Char.isWhitespace).reverse.dropWhile Char.isWhitespace).reverse⟩

/-- Python's `str.lower()` (on ASCII input). -/
def pyLower (s : String) : String :=
  ⟨s.data.map Char.toLower⟩

/-- Model of `approval_planner_node` (graph.py:294-321).  `approvedInput` and
`editInput` are the two raw `input()` strings (the second is only consumed
when the first, stripped and lower-cased, equals `"edit"`). -/
def approval_planner_node (approvedInput editInput : String) (s : GraphState) : GraphState :=
  let approved := pyLower (pyStrip approvedInput)
  if approved = "edit" then
    let edit_instructions := pyStrip editInput
    if edit_instructions = "" then
      { s with planner_approved := some "yes" }
    else
      { s with planner_approved := some "edit",
               edit_request := some edit_instructions,
               previous_plan := s.plan }
  else
    { s with planner_approved := some "yes" }

/-- Model of `approval_architect_node` (graph.py:323-349). -/
def approval_architect_node (approvedInput editInput : String) (s : GraphState) : GraphState :=
  let approved := pyLower (pyStrip approvedInput)
  if approved = "edit" then
    let edit_instructions := pyStrip editInput
    if edit_instructions = "" then
      { s with architect_approved := some "yes" }
    else
      { s with architect_approved := some "edit",
               edit_request := some edit_instructions,
               previous_task_plan := s.task_plan }
  else
    { s with architect_approved := some "yes" }

/-- Model of `route_planner_approval` (graph.py:353-357). -/
def route_planner_approval (s : GraphState) : String :=
  if s.planner_approved = some "edit" then "planner" else "architect"

/-- Model of `route_architect_approval` (graph.py:359-363). -/
def route_architect_approval (s : GraphState) : String :=
  if s.architect_approved = some "edit" then "architect" else "coder"

/-- The state update `planner_agent` returns (graph.py:188-193), for the
plan `newPlan` the backend produced (on a `None` response the node raises
and the run aborts, so no update arises). -/
def planner_agent_update (newPlan : Plan) (s : GraphState) : GraphState :=
  { s with plan := some newPlan,
           user_prompt := s.user_prompt,
           edit_request := none,
           previous_plan := none }

/-- The state update `architect_agent` returns (graph.py:227-234): the
produced `TaskPlan` gets the current plan attached (`message.plan = plan`)
and the pending-edit pair is cleared. -/
def architect_agent_update (steps : List ImplementationTask) (p : Plan) (s : GraphState) :
    GraphState :=
  { s with task_plan := some ⟨steps, some p⟩,
           edit_request := none,
           previous_task_plan := none }

/-- The state update `coder_agent` returns (graph.py:246-290): it always
returns `coder_state`; it returns a `status` key only when it is `"DONE"`
(when absent the old value is kept by the merge). -/
def coder_agent_update (cs : CoderState) (st : Option String) (s : GraphState) : GraphState :=
  match st with
  | some v => { s with coder_state := some cs, status := some v }
  | none => { s with coder_state := some cs }

/-! ## Claims C8 and C10: the approval checkpoints -/

/-- C8: at both approval checkpoints, answering `"edit"` but then supplying
empty (whitespace-only) edit text yields exactly the explicit-approval
update: only the approval flag is set to `"yes"` (in particular no
edit-request and no prior-record field is written), and the router moves
the workflow forward (to Architecture resp. Coding), so the revising branch
of the Planning/Architecture stage is never entered. -/
theorem empty_edit_treated_as_approval (s : GraphState) (a e : String)
    (ha : pyLower (pyStrip a) = "edit") (he : pyStrip e = "") :
    approval_planner_node a e s = { s with planner_approved := some "yes" }
    ∧ route_planner_approval (approval_planner_node a e s) = "architect"
    ∧ approval_architect_node a e s = { s with architect_approved := some "yes" }
    ∧ route_architect_approval (approval_architect_node a e s) = "coder" := by
  have h1 : approval_planner_node a e s = { s with planner_approved := some "yes" } := by
    simp [approval_planner_node, ha, he]
  have h2 : approval_architect_node a e s = { s with architect_approved := some "yes" } := by
    simp [approval_architect_node, ha, he]
  refine ⟨h1, ?_, h2, ?_⟩
  · rw [h1]; simp [route_planner_approval]
  · rw [h2]; simp [route_architect_approval]

theorem empty_edit_treated_as_approval_witness :
    (pyLower (pyStrip " EDIT ") = "edit" ∧ pyStrip "   " = "")
    ∧ (approval_planner_node " EDIT " "   " {}
        = { ({} : GraphState) with planner_approved := some "yes" }
      ∧ route_planner_approval (approval_planner_node " EDIT " "   " {}) = "architect"
      ∧ approval_architect_node " EDIT " "   " {}
        = { ({} : GraphState) with architect_approved := some "yes" }
      ∧ route_architect_approval (approval_architect_node " EDIT " "   " {}) = "coder") :=
  ⟨⟨by decide, by decide⟩,
    empty_edit_treated_as_approval {} " EDIT " "   " (by decide) (by decide)⟩

/-- C10: at both approval checkpoints, every human input whose stripped
lower-cased form is not exactly `"edit"` — empty input, `"no"`, anything
else — produces exactly the approval update and moves the workflow forward;
since this covers all non-`"edit"` inputs, only the exact word `"edit"` can
open the revision path. -/
theorem non_edit_input_treated_as_approval (s : GraphState) (a e : String)
    (ha : pyLower (pyStrip a) ≠ "edit") :
    approval_planner_node a e s = { s with planner_approved := some "yes" }
    ∧ route_planner_approval (approval_planner_node a e s) = "architect"
    ∧ approval_architect_node a e s = { s with architect_approved := some "yes" }
    ∧ route_architect_approval (approval_architect_node a e s) = "coder" := by
  have h1 : approval_planner_node a e s = { s with planner_approved := some "yes" } := by
    simp [approval_planner_node, ha]
  have h2 : approval_architect_node a e s = { s with architect_approved := some "yes" } := by
    simp [approval_architect_node, ha]
  refine ⟨h1, ?_, h2, ?_⟩
  · rw [h1]; simp [route_planner_approval]
  · rw [h2]; simp [route_architect_approval]

theorem non_edit_input_treated_as_approval_witness :
    (pyLower (pyStrip "no") ≠ "edit")
    ∧ (approval_planner_node "no" "whatever" {}
        = { ({} : GraphState) with planner_approved := some "yes" }
      ∧ route_planner_approval (approval_planner_node "no" "whatever" {}) = "architect"
      ∧ approval_architect_node "no" "whatever" {}
        = { ({} : GraphState) with architect_approved := some "yes" }
      ∧ route_architect_approval (approval_architect_node "no" "whatever" {}) = "coder") :=
  ⟨by decide, non_edit_input_treated_as_approval {} "no" "whatever" (by decide)⟩

/-! ## The workflow graph as a transition system (graph.py:373-415) -/

/-- The graph's named nodes (graph.py:376-380) plus the terminal `END`. -/
inductive Node where
  | planner
  | approvalPlanner
  | architect
  | approvalArchitect
  | coder
  | done
deriving Repr, DecidableEq

/-- Which node the conditional edge map (graph.py:387-394) selects from
`route_planner_approval`. -/
def nodeOfRoutePlanner (r : String) : Node :=
  if r = "planner" then .planner else .architect

/-- Which node the conditional edge map (graph.py:396-403) selects from
`route_architect_approval`. -/
def nodeOfRouteArchitect (r : String) : Node :=
  if r = "architect" then .architect else .coder

/-- Which node the conditional edge map (graph.py:405-412) selects from
`route_coder`. -/
def nodeOfRouteCoder (r : String) : Node :=
  if r = "__end__" then .done else .coder

/-- Initial state `agent.invoke` receives (graph.py:454): a run starts
at the entry point `planner` with only the user prompt set. -/
def initState (up : String) : GraphState := { user_prompt := some up }

/-- One node execution followed by the edge the graph takes out of it.
The oracle data of each constructor are the external inputs of that node
(backend outputs, human answers, read results, elapsed time); a node whose
Python body raises (backend returning `None`, missing `task_plan` key,
escaping step file path) has no successor. -/
inductive Step : Node × GraphState → Node × GraphState → Prop where
  | planner (p : Plan) (s : GraphState) :
      Step (.planner, s) (.approvalPlanner, planner_agent_update p s)
  | approvalPlanner (a e : String) (s : GraphState) :
      Step (.approvalPlanner, s)
        (nodeOfRoutePlanner (route_planner_approval (approval_planner_node a e s)),
          approval_planner_node a e s)
  | architect (steps : List ImplementationTask) (p : Plan) (s : GraphState)
      (hp : s.plan = some p) :
      Step (.architect, s) (.approvalArchitect, architect_agent_update steps p s)
  | approvalArchitect (a e : String) (s : GraphState) (htp : s.task_plan.isSome) :
      Step (.approvalArchitect, s)
        (nodeOfRouteArchitect (route_architect_approval (approval_architect_node a e s)),
          approval_architect_node a e s)
  | coder (readRes : Except Err String) (f : Bool) (t : ℚ) (s : GraphState) (res : CoderResult)
      (h : coder_agent readRes f t s.task_plan s.coder_state = some (.ok res)) :
      Step (.coder, s)
        (nodeOfRouteCoder (route_coder res.status),
          coder_agent_update res.coder_state res.status s)

/-- A node/state pair the compiled graph can be in during some run. -/
def Reachable (x : Node × GraphState) : Prop :=
  ∃ up, Relation.ReflTransGen Step (Node.planner, initState up) x

/-- No revision is pending: the edit-request and both saved prior records
are clear. -/
def ClearedPrev (s : GraphState) : Prop :=
  s.edit_request = none ∧ s.previous_plan = none ∧ s.previous_task_plan = none

/-- The per-node state invariant: a pending edit-request exists only on the
edges back into `planner` or `architect`, and there it is paired with the
saved copy of the record it targets, which still equals the current
accepted record. -/
def Inv : Node → GraphState → Prop
  | .planner, s =>
      ClearedPrev s
      ∨ (∃ e p, s.edit_request = some e ∧ s.previous_plan = some p ∧ s.plan = some p
          ∧ s.previous_task_plan = none)
  | .approvalPlanner, s => ClearedPrev s ∧ s.plan.isSome
  | .architect, s =>
      s.plan.isSome
      ∧ (ClearedPrev s
        ∨ (∃ e t, s.edit_request = some e ∧ s.previous_task_plan = some t
            ∧ s.task_plan = some t ∧ s.previous_plan = none))
  | .approvalArchitect, s => ClearedPrev s ∧ s.plan.isSome ∧ s.task_plan.isSome
  | .coder, s => ClearedPrev s ∧ s.task_plan.isSome
  | .done, s => ClearedPrev s ∧ s.task_plan.isSome

theorem inv_step {x y : Node × GraphState} (hstep : Step x y) (hinv : Inv x.1 x.2) :
    Inv y.1 y.2 := by
  cases hstep with
  | planner p s =>
    have hptp : s.previous_task_plan = none := by
      rcases hinv with hc | ⟨e, q, _, _, _, h⟩
      · exact hc.2.2
      · exact h
    exact ⟨⟨rfl, rfl, hptp⟩, rfl⟩
  | approvalPlanner a e s =>
    obtain ⟨⟨he0, hpp0, hptp0⟩, hplan⟩ := hinv
    by_cases hed : pyLower (pyStrip a) = "edit"
    · by_cases hemp : pyStrip e = ""
      · have hupd : approval_planner_node a e s = { s with planner_approved := some "yes" } := by
          simp [approval_planner_node, hed, hemp]
        rw [hupd]
        have hroute : nodeOfRoutePlanner (route_planner_approval
            { s with planner_approved := some "yes" }) = .architect := by
          simp [nodeOfRoutePlanner, route_planner_approval]
        rw [hroute]
        exact ⟨hplan, Or.inl ⟨he0, hpp0, hptp0⟩⟩
      · have hupd : approval_planner_node a e s
            = { s with planner_approved := some "edit",
                       edit_request := some (pyStrip e),
                       previous_plan := s.plan } := by
          simp [approval_planner_node, hed, hemp]
        rw [hupd]
        have hroute : nodeOfRoutePlanner (route_planner_approval
            { s with planner_approved := some "edit",
                     edit_request := some (pyStrip e),
                     previous_plan := s.plan }) = .planner := by
          simp [nodeOfRoutePlanner, route_planner_approval]
        rw [hroute]
        obtain ⟨p, hp⟩ := Option.isSome_iff_exists.mp hplan
        exact Or.inr ⟨pyStrip e, p, rfl, hp, hp, hptp0⟩
    · have hupd : approval_planner_node a e s = { s with planner_approved := some "yes" } := by
        simp [approval_planner_node, hed]
      rw [hupd]
      have hroute : nodeOfRoutePlanner (route_planner_approval
          { s with planner_approved := some "yes" }) = .architect := by
        simp [nodeOfRoutePlanner, route_planner_approval]
      rw [hroute]
      exact ⟨hplan, Or.inl ⟨he0, hpp0, hptp0⟩⟩
  | architect steps p s hp =>
    have hpp : s.previous_plan = none := by
      rcases hinv.2 with hc | ⟨e, t, _, _, _, h⟩
      · exact hc.2.1
      · exact h
    exact ⟨⟨rfl, hpp, rfl⟩, hinv.1, rfl⟩
  | approvalArchitect a e s htp =>
    obtain ⟨⟨he0, hpp0, hptp0⟩, hplan, htpSome⟩ := hinv
    by_cases hed : pyLower (pyStrip a) = "edit"
    · by_cases hemp : pyStrip e = ""
      · have hupd : approval_architect_node a e s
            = { s with architect_approved := some "yes" } := by
          simp [approval_architect_node, hed, hemp]
        rw [hupd]
        have hroute : nodeOfRouteArchitect (route_architect_approval
            { s with architect_approved := some "yes" }) = .coder := by
          simp [nodeOfRouteArchitect, route_architect_approval]
        rw [hroute]
        exact ⟨⟨he0, hpp0, hptp0⟩, htpSome⟩
      · have hupd : approval_architect_node a e s
            = { s with architect_approved := some "edit",
                       edit_request := some (pyStrip e),
                       previous_task_plan := s.task_plan } := by
          simp [approval_architect_node, hed, hemp]
        rw [hupd]
        have hroute : nodeOfRouteArchitect (route_architect_approval
            { s with architect_approved := some "edit",
                     edit_request := some (pyStrip e),
                     previous_task_plan := s.task_plan }) = .architect := by
          simp [nodeOfRouteArchitect, route_architect_approval]
        rw [hroute]
        obtain ⟨t, ht⟩ := Option.isSome_iff_exists.mp htpSome
        exact ⟨hplan, Or.inr ⟨pyStrip e, t, rfl, ht, ht, hpp0⟩⟩
    · have hupd : approval_architect_node a e s
          = { s with architect_approved := some "yes" } := by
        simp [approval_architect_node, hed]
      rw [hupd]
      have hroute : nodeOfRouteArchitect (route_architect_approval
          { s with architect_approved := some "yes" }) = .coder := by
        simp [nodeOfRouteArchitect, route_architect_approval]
      rw [hroute]
      exact ⟨⟨he0, hpp0, hptp0⟩, htpSome⟩
  | coder readRes f t s res h =>
    obtain ⟨⟨he0, hpp0, hptp0⟩, htpSome⟩ := hinv
    have hfields : (coder_agent_update res.coder_state res.status s).edit_request = none
        ∧ (coder_agent_update res.coder_state res.status s).previous_plan = none
        ∧ (coder_agent_update res.coder_state res.status s).previous_task_plan = none
        ∧ (coder_agent_update res.coder_state res.status s).task_plan.isSome := by
      cases hst : res.status
      · exact ⟨he0, hpp0, hptp0, htpSome⟩
      · exact ⟨he0, hpp0, hptp0, htpSome⟩
    by_cases hr : route_coder res.status = "__end__"
    · have : nodeOfRouteCoder (route_coder res.status) = .done := by
        simp [nodeOfRouteCoder, hr]
      rw [this]
      exact ⟨⟨hfields.1, hfields.2.1, hfields.2.2.1⟩, hfields.2.2.2⟩
    · have : nodeOfRouteCoder (route_coder res.status) = .coder := by
        simp [nodeOfRouteCoder, hr]
      rw [this]
      exact ⟨⟨hfields.1, hfields.2.1, hfields.2.2.1⟩, hfields.2.2.2⟩

theorem reachable_inv (x : Node × GraphState) (h : Reachable x) : Inv x.1 x.2 := by
  obtain ⟨up, hr⟩ := h
  induction hr with
  | refl => exact Or.inl ⟨rfl, rfl, rfl⟩
  | tail hsteps hstep ih => exact inv_step hstep ih

/-! ## Claim C9: the pending-edit pairing invariant -/

/-- C9: in every reachable state of the compiled workflow, a pending
edit-request is accompanied by the saved prior record it targets — the
saved prior Plan (resp. TaskPlan) still equals the current accepted Plan
(resp. TaskPlan), and the other prior-record slot is clear; moreover the
updates the revising stages return clear the edit-request together with
their saved prior record in the same state update, so a stale edit-request
cannot survive into a later unrelated edit. -/
theorem pending_edit_pairing (n : Node) (s : GraphState) (h : Reachable (n, s)) :
    (∀ e, s.edit_request = some e →
        (∃ p, s.previous_plan = some p ∧ s.plan = some p ∧ s.previous_task_plan = none)
      ∨ (∃ t, s.previous_task_plan = some t ∧ s.task_plan = some t ∧ s.previous_plan = none))
    ∧ (∀ p, (planner_agent_update p s).edit_request = none
        ∧ (planner_agent_update p s).previous_plan = none)
    ∧ (∀ steps p, (architect_agent_update steps p s).edit_request = none
        ∧ (architect_agent_update steps p s).previous_task_plan = none) := by
  have hinv := reachable_inv (n, s) h
  refine ⟨?_, fun p => ⟨rfl, rfl⟩, fun steps p => ⟨rfl, rfl⟩⟩
  intro e he
  cases n with
  | planner =>
    rcases hinv with hc | ⟨e2, p, he2, hpp, hplan, hptp⟩
    · rw [hc.1] at he; exact absurd he (by simp)
    · exact Or.inl ⟨p, hpp, hplan, hptp⟩
  | approvalPlanner => rw [hinv.1.1] at he; exact absurd he (by simp)
  | architect =>
    rcases hinv.2 with hc | ⟨e2, t, he2, hptp, htp, hpp⟩
    · rw [hc.1] at he; exact absurd he (by simp)
    · exact Or.inr ⟨t, hptp, htp, hpp⟩
  | approvalArchitect => rw [hinv.1.1] at he; exact absurd he (by simp)
  | coder => rw [hinv.1.1] at he; exact absurd he (by simp)
  | done => rw [hinv.1.1] at he; exact absurd he (by simp)

/-- A concrete plan for the reachability witness. -/
def planSnake : Plan := ⟨"snake", "a snake game", "python", [], []⟩

theorem pending_edit_pairing_witness :
    Reachable (Node.planner,
      approval_planner_node "edit" "add dark mode"
        (planner_agent_update planSnake (initState "build a snake game")))
    ∧ ((∃ p, (approval_planner_node "edit" "add dark mode"
            (planner_agent_update planSnake (initState "build a snake game"))).previous_plan
              = some p
          ∧ (approval_planner_node "edit" "add dark mode"
            (planner_agent_update planSnake (initState "build a snake game"))).plan = some p
          ∧ (approval_planner_node "edit" "add dark mode"
            (planner_agent_update planSnake
              (initState "build a snake game"))).previous_task_plan = none)
      ∨ (∃ t, (approval_planner_node "edit" "add dark mode"
            (planner_agent_update planSnake (initState "build a snake game"))).previous_task_plan
              = some t
          ∧ (approval_planner_node "edit" "add dark mode"
            (planner_agent_update planSnake (initState "build a snake game"))).task_plan = some t
          ∧ (approval_planner_node "edit" "add dark mode"
            (planner_agent_update planSnake (initState "build a snake game"))).previous_plan
              = none)) := by
  have hstep1 := Step.planner planSnake (initState "build a snake game")
  have hstep2 := Step.approvalPlanner "edit" "add dark mode"
    (planner_agent_update planSnake (initState "build a snake game"))
  have hnode : nodeOfRoutePlanner (route_planner_approval
      (approval_planner_node "edit" "add dark mode"
        (planner_agent_update planSnake (initState "build a snake game")))) = Node.planner := by
    decide
  rw [hnode] at hstep2
  have hreach : Reachable (Node.planner,
      approval_planner_node "edit" "add dark mode"
        (planner_agent_update planSnake (initState "build a snake game"))) :=
    ⟨"build a snake game",
      Relation.ReflTransGen.tail (Relation.ReflTransGen.tail Relation.ReflTransGen.refl hstep1)
        hstep2⟩
  exact ⟨hreach, (pending_edit_pairing _ _ hreach).1 "add dark mode" (by decide)⟩

end LangGraphAgent
